import Mathlib

/-!
Shallow embedding of the AHardwareBuffer pool and SurfaceControl presentation
layer of `drift_jni.c` (the Android JNI template of the drift repository).

The C code is modelled as pure Lean functions that return, besides their
result and updated pool state, a trace of the externally visible GL / EGL /
AHardwareBuffer / SurfaceControl calls they perform (`List Ev`).  Failure of
the platform allocation steps inside `init_slot` is injected through an
explicit per-slot outcome plan; fresh native handles are drawn from a
monotone counter so that distinct allocations have distinct ids.
-/

/-- Externally visible platform calls performed by the pool code. -/
inductive Ev where
  | ahbAlloc (id : Nat) (w h : Int)   -- AHardwareBuffer_allocate (success)
  | ahbRelease (id : Nat)             -- AHardwareBuffer_release
  | eglCreateImage (id : Nat)         -- eglCreateImageKHR (success)
  | eglDestroyImage (id : Nat)        -- eglDestroyImageKHR
  | genTexture (id : Nat)             -- glGenTextures
  | deleteTexture (id : Nat)          -- glDeleteTextures
  | genFbo (id : Nat)                 -- glGenFramebuffers
  | deleteFbo (id : Nat)              -- glDeleteFramebuffers
  | genRbo (id : Nat)                 -- glGenRenderbuffers
  | deleteRbo (id : Nat)              -- glDeleteRenderbuffers
  | glFinish                          -- glFinish (synchronous full GPU drain)
  | glFlush                           -- glFlush
  | bindFbo (id : Nat)                -- glBindFramebuffer in acquireBuffer
  | viewport (w h : Int)              -- glViewport in acquireBuffer
  | freePool                          -- free(pool)
  | closeFd (fd : Int)                -- close(fenceFd)
  | createSync                        -- eglCreateSyncKHR (success)
  | destroySync                       -- eglDestroySyncKHR
  | dupFenceFd (fd : Int)             -- eglDupNativeFenceFDANDROID
  | txnCreate                         -- ASurfaceTransaction_create (success)
  | txnSetBuffer (buf : Nat) (fd : Int) -- ASurfaceTransaction_setBuffer
  | txnSetVisibility                  -- ASurfaceTransaction_setVisibility
  | txnApply                          -- ASurfaceTransaction_apply
  | txnDelete                         -- ASurfaceTransaction_delete
deriving Repr, DecidableEq

/-- One slot of the pool: AHardwareBuffer, EGL image, GL texture, FBO and
depth/stencil renderbuffer, each an opaque handle with `0` standing for the
C code's NULL / 0 value (the pool is calloc-zeroed). -/
structure BufferSlot where
  buffer : Nat
  image : Nat
  texture : Nat
  fbo : Nat
  depthStencil : Nat
deriving Repr, DecidableEq

/-- The all-zero slot produced by `calloc` and by `destroy_slot`. -/
def emptySlot : BufferSlot := ⟨0, 0, 0, 0, 0⟩

/-- The `BufferPool` struct of `drift_jni.c`.  The C code holds a fixed
array `slots[MAX_BUFFER_COUNT]` of which only the first `count` entries are
ever touched; we keep exactly those entries as a list. -/
structure BufferPool where
  slots : List BufferSlot
  count : Int
  width : Int
  height : Int
  current : Int
  hasFenceSupport : Bool
deriving Repr, DecidableEq

/-- `[e]` when the guard holds, `[]` otherwise (the per-field null checks of
`destroy_slot`). -/
def optEv (p : Prop) [Decidable p] (e : Ev) : List Ev :=
  if p then [e] else []

/-- `destroy_slot`: deletes FBO, renderbuffer, texture, EGL image and
releases the AHardwareBuffer, in that order, with a null check per field,
and zeroes the slot. -/
def destroy_slot (s : BufferSlot) : BufferSlot × List Ev :=
  (emptySlot,
    optEv (s.fbo ≠ 0) (Ev.deleteFbo s.fbo) ++
    optEv (s.depthStencil ≠ 0) (Ev.deleteRbo s.depthStencil) ++
    optEv (s.texture ≠ 0) (Ev.deleteTexture s.texture) ++
    optEv (s.image ≠ 0) (Ev.eglDestroyImage s.image) ++
    optEv (s.buffer ≠ 0) (Ev.ahbRelease s.buffer))

/-- The release events `destroy_slot` emits for a slot. -/
def slotReleaseEvs (s : BufferSlot) : List Ev := (destroy_slot s).2

/-- `destroy_slot` applied to each slot of a list, front to back (the
cleanup loops `for (j = 0; j < i; j++) destroy_slot(&pool->slots[j])` and
the destroy loops of `destroyBufferPool` / `resizeBufferPool`). -/
def destroyAll : List BufferSlot → List Ev
  | [] => []
  | s :: rest => (destroy_slot s).2 ++ destroyAll rest

/-- Injected outcome of one `init_slot` call: which internal step fails, if
any.  `allocFail` = `AHardwareBuffer_allocate` fails, `clientBufFail` =
`eglGetNativeClientBufferANDROID` returns NULL, `imageFail` =
`eglCreateImageKHR` returns `EGL_NO_IMAGE_KHR`, `fboIncomplete` =
`glCheckFramebufferStatus` is not `GL_FRAMEBUFFER_COMPLETE`. -/
inductive InitOutcome where
  | allocFail
  | clientBufFail
  | imageFail
  | fboIncomplete
  | ok
deriving Repr, DecidableEq

/-- `init_slot(slot, width, height)`: allocates the AHardwareBuffer, wraps
it in an EGL image, creates the texture, FBO and depth/stencil renderbuffer.
On any internal failure it calls `destroy_slot` on the partially built slot
and reports failure (`none`).  Handle ids are drawn from the counter `g`. -/
def init_slot (o : InitOutcome) (w h : Int) (g : Nat) :
    Option BufferSlot × Nat × List Ev :=
  match o with
  | .allocFail => (none, g, [])
  | .clientBufFail =>
      (none, g + 1,
       Ev.ahbAlloc (g + 1) w h :: (destroy_slot { emptySlot with buffer := g + 1 }).2)
  | .imageFail =>
      (none, g + 1,
       Ev.ahbAlloc (g + 1) w h :: (destroy_slot { emptySlot with buffer := g + 1 }).2)
  | .fboIncomplete =>
      (none, g + 5,
       [Ev.ahbAlloc (g + 1) w h, Ev.eglCreateImage (g + 2), Ev.genTexture (g + 3),
        Ev.genFbo (g + 4), Ev.genRbo (g + 5)] ++
       (destroy_slot ⟨g + 1, g + 2, g + 3, g + 4, g + 5⟩).2)
  | .ok =>
      (some ⟨g + 1, g + 2, g + 3, g + 4, g + 5⟩, g + 5,
       [Ev.ahbAlloc (g + 1) w h, Ev.eglCreateImage (g + 2), Ev.genTexture (g + 3),
        Ev.genFbo (g + 4), Ev.genRbo (g + 5)])

/-- The slot-initialization loop shared by `createBufferPool` and
`resizeBufferPool`: initializes `k` further slots (slot indices `i`,
`i+1`, …), accumulating the already-created slots in `acc`; on the first
failure it destroys every slot created so far (`acc`) in order and reports
failure. -/
def initSlots (plan : Nat → InitOutcome) (w h : Int) :
    Nat → Nat → Nat → List BufferSlot → Option (List BufferSlot) × Nat × List Ev
  | g, _, 0, acc => (some acc, g, [])
  | g, i, k + 1, acc =>
    match init_slot (plan i) w h g with
    | (some s, g1, ev) =>
      match initSlots plan w h g1 (i + 1) k (acc ++ [s]) with
      | (r, g2, ev2) => (r, g2, ev ++ ev2)
    | (none, g1, ev) => (none, g1, ev ++ destroyAll acc)

/-- `MAX_BUFFER_COUNT` of `drift_jni.c`. -/
def MAX_BUFFER_COUNT : Int := 4

/-- The count clamp of `createBufferPool`:
`if (count < 1 || count > MAX_BUFFER_COUNT) count = 3;`. -/
def clampCountI (count : Int) : Int :=
  if count < 1 ∨ MAX_BUFFER_COUNT < count then 3 else count

/-- Environment of one `createBufferPool` call: whether
`resolve_egl_extensions` succeeds, whether `calloc` succeeds, whether the
EGL native-fence extension functions resolved, the per-slot `init_slot`
outcome plan, and the fresh-handle seed. -/
structure Host where
  extOk : Bool
  callocOk : Bool
  fenceExt : Bool
  plan : Nat → InitOutcome
  g0 : Nat

/-- `Java_..._createBufferPool(env, clazz, width, height, count)`:
resolves extensions, clamps `count`, callocs the pool, records fence
capability, initializes the slots aborting and freeing everything on the
first failure, and sets `current = -1`. -/
def createBufferPool (host : Host) (width height count : Int) :
    Option BufferPool × List Ev :=
  if host.extOk = false then (none, [])
  else
    let c := clampCountI count
    if host.callocOk = false then (none, [])
    else
      match initSlots host.plan width height host.g0 0 c.toNat [] with
      | (some slots, _, ev) =>
        (some { slots := slots, count := c, width := width, height := height,
                current := -1, hasFenceSupport := host.fenceExt }, ev)
      | (none, _, ev) => (none, ev ++ [Ev.freePool])

/-- `Java_..._destroyBufferPool(env, clazz, poolPtr)`: destroys every slot
and frees the pool (it performs no GPU drain). -/
def destroyBufferPool (pool : Option BufferPool) : List Ev :=
  match pool with
  | none => []
  | some p => destroyAll p.slots ++ [Ev.freePool]

/-- `Java_..._acquireBuffer(env, clazz, poolPtr)`: advances the round-robin
index `current = (current + 1) % count` (C's truncated `%`, hence
`Int.tmod`), binds the slot's FBO, sets the viewport and returns the index.
Returns `-1` for a null pool or non-positive count. -/
def acquireBuffer (pool : Option BufferPool) :
    Int × Option BufferPool × List Ev :=
  match pool with
  | none => (-1, none, [])
  | some p =>
    if p.count ≤ 0 then (-1, some p, [])
    else
      let cur := (p.current + 1).tmod p.count
      (cur, some { p with current := cur },
       [Ev.bindFbo ((p.slots.getD cur.toNat emptySlot).fbo),
        Ev.viewport p.width p.height])

/-- `Java_..._resizeBufferPool(env, clazz, poolPtr, width, height)`:
no-op returning 0 when dimensions are unchanged; otherwise `glFinish`,
destroy every slot, update dimensions, reset `current = -1`, and recreate
all `count` slots, zeroing `count` and returning `-1` if any recreation
fails (the failing attempt's partial slots are destroyed by the loop). -/
def resizeBufferPool (plan : Nat → InitOutcome) (g : Nat)
    (pool : Option BufferPool) (width height : Int) :
    Int × Option BufferPool × List Ev :=
  match pool with
  | none => (-1, none, [])
  | some p =>
    if p.width = width ∧ p.height = height then (0, some p, [])
    else
      let dev := destroyAll p.slots
      match initSlots plan width height g 0 p.count.toNat [] with
      | (some slots, _, ev) =>
        (0, some { p with slots := slots, width := width, height := height,
                          current := -1 },
         Ev.glFinish :: (dev ++ ev))
      | (none, _, ev) =>
        (-1, some { p with slots := [], width := width, height := height,
                           current := -1, count := 0 },
         Ev.glFinish :: (dev ++ ev))

/-- Environment of one `createFence` call: whether `eglCreateSyncKHR`
succeeds and the fd `eglDupNativeFenceFDANDROID` returns (negative means
failure). -/
structure FenceHost where
  syncOk : Bool
  dupFd : Int
deriving Repr, DecidableEq

/-- `Java_..._createFence(env, clazz, poolPtr)`: for a null pool or a pool
without fence support, `glFinish()` and return `-1`; otherwise create an
EGL native-fence sync, flush, duplicate its fd, destroy the sync, and
return the fd (falling back to `glFinish()` and `-1` when sync creation or
fd duplication fails). -/
def createFence (fh : FenceHost) (pool : Option BufferPool) :
    Int × List Ev :=
  match pool with
  | none => (-1, [Ev.glFinish])
  | some p =>
    if p.hasFenceSupport = false then (-1, [Ev.glFinish])
    else if fh.syncOk = false then (-1, [Ev.glFinish])
    else if fh.dupFd < 0 then
      (-1, [Ev.createSync, Ev.glFlush, Ev.dupFenceFd fh.dupFd, Ev.destroySync,
            Ev.glFinish])
    else
      (fh.dupFd, [Ev.createSync, Ev.glFlush, Ev.dupFenceFd fh.dupFd,
                  Ev.destroySync])

/-- `Java_..._presentBuffer(env, clazz, poolPtr, surfaceControlPtr,
bufferIndex, fenceFd)`: on a null pool, null surface control, unresolved
`sc_createTransaction`, or out-of-range index, closes the fence fd when it
is non-negative and returns; otherwise creates a transaction (closing the
fd on creation failure), sets the slot's buffer with the fence fd attached,
applies and deletes the transaction. -/
def presentBuffer (surfaceOk txnResolvedOk txnCreateOk : Bool)
    (pool : Option BufferPool) (bufferIndex fenceFd : Int) : List Ev :=
  match pool with
  | none => if 0 ≤ fenceFd then [Ev.closeFd fenceFd] else []
  | some p =>
    if surfaceOk = false ∨ txnResolvedOk = false ∨
       bufferIndex < 0 ∨ p.count ≤ bufferIndex then
      if 0 ≤ fenceFd then [Ev.closeFd fenceFd] else []
    else if txnCreateOk = false then
      if 0 ≤ fenceFd then [Ev.closeFd fenceFd] else []
    else
      [Ev.txnCreate,
       Ev.txnSetBuffer ((p.slots.getD bufferIndex.toNat emptySlot).buffer) fenceFd,
       Ev.txnApply, Ev.txnDelete]

/-- `k` consecutive `acquireBuffer` calls: the returned indices, the
concatenated event trace, and the final pool. -/
def acquireSeq : Nat → Option BufferPool → List Int × List Ev × Option BufferPool
  | 0, p => ([], [], p)
  | k + 1, p =>
    match acquireBuffer p with
    | (r, p1, ev) =>
      match acquireSeq k p1 with
      | (rs, evs, p2) => (r :: rs, ev ++ evs, p2)

/-- The release event a creation event demands, if any. -/
def releaseOf : Ev → Option Ev
  | Ev.ahbAlloc id _ _ => some (Ev.ahbRelease id)
  | Ev.eglCreateImage id => some (Ev.eglDestroyImage id)
  | Ev.genTexture id => some (Ev.deleteTexture id)
  | Ev.genFbo id => some (Ev.deleteFbo id)
  | Ev.genRbo id => some (Ev.deleteRbo id)
  | _ => none

/-- Every creation event in the trace has its matching release event in the
trace: no GPU object created during the traced operation leaks. -/
def Matched (ev : List Ev) : Prop :=
  ∀ e ∈ ev, ∀ r, releaseOf e = some r → r ∈ ev

/-- All five handles of the slot are non-null. -/
def completeSlot (s : BufferSlot) : Prop :=
  s.buffer ≠ 0 ∧ s.image ≠ 0 ∧ s.texture ≠ 0 ∧ s.fbo ≠ 0 ∧ s.depthStencil ≠ 0

/-- All five handles of the slot are fresh with respect to counter `g`. -/
def slotFresh (g : Nat) (s : BufferSlot) : Prop :=
  g < s.buffer ∧ g < s.image ∧ g < s.texture ∧ g < s.fbo ∧ g < s.depthStencil

/-- A fully succeeding environment with fence support, seed 0. -/
def hostOk : Host :=
  { extOk := true, callocOk := true, fenceExt := true,
    plan := fun _ => InitOutcome.ok, g0 := 0 }

/-- An environment whose second slot initialization fails. -/
def hostFail1 : Host :=
  { extOk := true, callocOk := true, fenceExt := true,
    plan := fun i => if i = 1 then InitOutcome.allocFail else InitOutcome.ok,
    g0 := 0 }

/-! ### Helper lemmas -/

lemma mem_optEv {x : Ev} {p : Prop} [Decidable p] {e : Ev} (h : x ∈ optEv p e) :
    x = e := by
  unfold optEv at h
  split at h
  · simpa using h
  · simp at h

lemma destroy_slot_cases {x : Ev} {s : BufferSlot} (h : x ∈ (destroy_slot s).2) :
    x = Ev.deleteFbo s.fbo ∨ x = Ev.deleteRbo s.depthStencil ∨
    x = Ev.deleteTexture s.texture ∨ x = Ev.eglDestroyImage s.image ∨
    x = Ev.ahbRelease s.buffer := by
  simp only [destroy_slot, List.mem_append] at h
  rcases h with (((h | h) | h) | h) | h <;>
    simp [mem_optEv h]

lemma destroy_slot_releaseOf {x : Ev} {s : BufferSlot} (h : x ∈ (destroy_slot s).2) :
    releaseOf x = none := by
  rcases destroy_slot_cases h with h | h | h | h | h <;> simp [h, releaseOf]

lemma destroy_slot_ne_glFinish {x : Ev} {s : BufferSlot}
    (h : x ∈ (destroy_slot s).2) : x ≠ Ev.glFinish := by
  rcases destroy_slot_cases h with h | h | h | h | h <;> simp [h]

lemma destroy_slot_full (b i t f d : Nat) (hb : b ≠ 0) (hi : i ≠ 0) (ht : t ≠ 0)
    (hf : f ≠ 0) (hd : d ≠ 0) :
    (destroy_slot ⟨b, i, t, f, d⟩).2 =
      [Ev.deleteFbo f, Ev.deleteRbo d, Ev.deleteTexture t, Ev.eglDestroyImage i,
       Ev.ahbRelease b] := by
  simp [destroy_slot, optEv, hb, hi, ht, hf, hd]

lemma mem_destroyAll {x : Ev} : ∀ {l : List BufferSlot},
    x ∈ destroyAll l → ∃ s ∈ l, x ∈ (destroy_slot s).2
  | [], h => by simp [destroyAll] at h
  | s :: rest, h => by
    simp only [destroyAll, List.mem_append] at h
    rcases h with h | h
    · exact ⟨s, by simp, h⟩
    · rcases mem_destroyAll h with ⟨s', hs', hx⟩
      exact ⟨s', by simp [hs'], hx⟩

lemma destroyAll_releaseOf {x : Ev} {l : List BufferSlot}
    (h : x ∈ destroyAll l) : releaseOf x = none := by
  rcases mem_destroyAll h with ⟨s, _, hx⟩
  exact destroy_slot_releaseOf hx

lemma destroyAll_sub {s : BufferSlot} : ∀ {l : List BufferSlot}, s ∈ l →
    ∀ r ∈ slotReleaseEvs s, r ∈ destroyAll l
  | [], h => by simp at h
  | s' :: rest, h => by
    intro r hr
    simp only [destroyAll, List.mem_append]
    rcases List.mem_cons.mp h with h | h
    · exact Or.inl (h ▸ hr)
    · exact Or.inr (destroyAll_sub h r hr)

lemma destroyAll_no_glFinish {l : List BufferSlot} :
    Ev.glFinish ∉ destroyAll l := by
  intro h
  rcases mem_destroyAll h with ⟨s, _, hx⟩
  exact destroy_slot_ne_glFinish hx rfl


lemma destroy_slot_not_alloc {x : Ev} {s : BufferSlot}
    (h : x ∈ (destroy_slot s).2) : ∀ id ww hh, x ≠ Ev.ahbAlloc id ww hh := by
  rcases destroy_slot_cases h with h | h | h | h | h <;> simp [h]

lemma init_slot_some_iff {o : InitOutcome} {w h : Int} {g : Nat} {s : BufferSlot}
    {g1 : Nat} {ev : List Ev} (hinit : init_slot o w h g = (some s, g1, ev)) :
    o = InitOutcome.ok := by
  cases o <;> simp [init_slot] at hinit ⊢

lemma slotReleaseEvs_fresh (g : Nat) :
    slotReleaseEvs ⟨g + 1, g + 2, g + 3, g + 4, g + 5⟩ =
      [Ev.deleteFbo (g + 4), Ev.deleteRbo (g + 5), Ev.deleteTexture (g + 3),
       Ev.eglDestroyImage (g + 2), Ev.ahbRelease (g + 1)] := by
  unfold slotReleaseEvs
  exact destroy_slot_full _ _ _ _ _ (by omega) (by omega) (by omega) (by omega) (by omega)

lemma init_slot_none_matched {o : InitOutcome} {w h : Int} {g g1 : Nat}
    {ev : List Ev} (hinit : init_slot o w h g = (none, g1, ev)) :
    (∀ e ∈ ev, ∀ r, releaseOf e = some r → r ∈ ev) ∧
    (∀ e ∈ ev, ∀ id ww hh, e = Ev.ahbAlloc id ww hh → ww = w ∧ hh = h) := by
  cases o <;> simp only [init_slot, Prod.mk.injEq] at hinit
  case allocFail =>
    rcases hinit with ⟨_, _, hev⟩
    simp [← hev]
  case clientBufFail =>
    rcases hinit with ⟨_, _, hev⟩
    rw [← hev]
    refine ⟨?_, ?_⟩
    · intro e he r hr
      rcases List.mem_cons.mp he with h1 | h1
      · subst h1
        simp only [releaseOf, Option.some.injEq] at hr
        subst hr
        simp [destroy_slot, emptySlot, optEv]
      · rw [destroy_slot_releaseOf h1] at hr
        cases hr
    · intro e he id ww hh heq
      rcases List.mem_cons.mp he with h1 | h1
      · subst h1
        simp only [Ev.ahbAlloc.injEq] at heq
        exact ⟨heq.2.1.symm, heq.2.2.symm⟩
      · exact absurd heq (destroy_slot_not_alloc h1 id ww hh)
  case imageFail =>
    rcases hinit with ⟨_, _, hev⟩
    rw [← hev]
    refine ⟨?_, ?_⟩
    · intro e he r hr
      rcases List.mem_cons.mp he with h1 | h1
      · subst h1
        simp only [releaseOf, Option.some.injEq] at hr
        subst hr
        simp [destroy_slot, emptySlot, optEv]
      · rw [destroy_slot_releaseOf h1] at hr
        cases hr
    · intro e he id ww hh heq
      rcases List.mem_cons.mp he with h1 | h1
      · subst h1
        simp only [Ev.ahbAlloc.injEq] at heq
        exact ⟨heq.2.1.symm, heq.2.2.symm⟩
      · exact absurd heq (destroy_slot_not_alloc h1 id ww hh)
  case fboIncomplete =>
    rcases hinit with ⟨_, _, hev⟩
    rw [← hev]
    refine ⟨?_, ?_⟩
    · intro e he r hr
      rcases List.mem_append.mp he with h1 | h1
      · have hrel :
            r ∈ (destroy_slot (⟨g + 1, g + 2, g + 3, g + 4, g + 5⟩ : BufferSlot)).2 := by
          have := slotReleaseEvs_fresh g
          unfold slotReleaseEvs at this
          rw [this]
          fin_cases h1 <;> simp_all [releaseOf]
        exact List.mem_append.mpr (Or.inr hrel)
      · rw [destroy_slot_releaseOf h1] at hr
        cases hr
    · intro e he id ww hh heq
      rcases List.mem_append.mp he with h1 | h1
      · fin_cases h1 <;> simp_all
      · exact absurd heq (destroy_slot_not_alloc h1 id ww hh)
  case ok =>
    exact absurd hinit.1 (by simp)

lemma initSlots_some (plan : Nat → InitOutcome) (w h : Int) (k : Nat) :
    ∀ (g i : Nat) (acc slots : List BufferSlot) (g2 : Nat) (ev : List Ev),
      initSlots plan w h g i k acc = (some slots, g2, ev) →
      (∀ d, d < k → plan (i + d) = InitOutcome.ok) ∧
      slots.length = acc.length + k ∧
      (∀ s ∈ slots, s ∈ acc ∨ (completeSlot s ∧ slotFresh g s)) ∧
      (∀ e ∈ ev, ∀ id ww hh, e = Ev.ahbAlloc id ww hh → ww = w ∧ hh = h) := by
  induction k with
  | zero =>
    intro g i acc slots g2 ev hinit
    obtain ⟨hs, _, hev⟩ : acc = slots ∧ g = g2 ∧ ([] : List Ev) = ev := by
      simpa [initSlots] using hinit
    subst hs
    subst hev
    exact ⟨fun d hd => absurd hd (by omega), by simp,
           fun s hs => Or.inl hs, by simp⟩
  | succ k ih =>
    intro g i acc slots g2 ev hinit
    rcases hi : init_slot (plan i) w h g with ⟨o1, g1, evF⟩
    cases o1 with
    | none =>
      simp only [initSlots, hi] at hinit
      simp [Prod.mk.injEq] at hinit
    | some s =>
      have hok := init_slot_some_iff hi
      have hi2 : init_slot (plan i) w h g =
          (some (⟨g + 1, g + 2, g + 3, g + 4, g + 5⟩ : BufferSlot), g + 5,
           [Ev.ahbAlloc (g + 1) w h, Ev.eglCreateImage (g + 2), Ev.genTexture (g + 3),
            Ev.genFbo (g + 4), Ev.genRbo (g + 5)]) := by
        rw [hok]
        rfl
      simp only [initSlots, hi2] at hinit
      rcases hrec : initSlots plan w h (g + 5) (i + 1) k
          (acc ++ [(⟨g + 1, g + 2, g + 3, g + 4, g + 5⟩ : BufferSlot)]) with ⟨r, g2', ev2⟩
      rw [hrec] at hinit
      obtain ⟨hr, hg2, hev⟩ : r = some slots ∧ g2' = g2 ∧
          [Ev.ahbAlloc (g + 1) w h, Ev.eglCreateImage (g + 2), Ev.genTexture (g + 3),
           Ev.genFbo (g + 4), Ev.genRbo (g + 5)] ++ ev2 = ev := by
        simpa [Prod.mk.injEq] using hinit
      subst hr
      subst hev
      obtain ⟨ihplan, ihlen, ihmem, ihdims⟩ := ih (g + 5) (i + 1) _ slots g2' ev2 hrec
      refine ⟨?_, ?_, ?_, ?_⟩
      · intro d hd
        rcases d with _ | d
        · simpa using hok
        · have := ihplan d (by omega)
          rwa [show i + 1 + d = i + (d + 1) by omega] at this
      · simp only [List.length_append, List.length_cons, List.length_nil] at ihlen ⊢
        omega
      · intro s hs
        rcases ihmem s hs with hmem | ⟨hc, hf⟩
        · rcases List.mem_append.mp hmem with h1 | h1
          · exact Or.inl h1
          · refine Or.inr ?_
            have heq : s = (⟨g + 1, g + 2, g + 3, g + 4, g + 5⟩ : BufferSlot) := by
              simpa using h1
            subst heq
            constructor
            · simp only [completeSlot]
              refine ⟨by omega, by omega, by omega, by omega, by omega⟩
            · simp only [slotFresh]
              refine ⟨by omega, by omega, by omega, by omega, by omega⟩
        · refine Or.inr ⟨hc, ?_⟩
          simp only [slotFresh] at hf ⊢
          obtain ⟨f1, f2, f3, f4, f5⟩ := hf
          exact ⟨by omega, by omega, by omega, by omega, by omega⟩
      · intro e he id ww hh heq
        rcases List.mem_append.mp he with h1 | h1
        · fin_cases h1
          · injection heq with e1 e2 e3
            exact ⟨e2.symm, e3.symm⟩
          all_goals exact absurd heq (by simp)
        · exact ihdims e h1 id ww hh heq

lemma initSlots_fail_none (plan : Nat → InitOutcome) (w h : Int) (k : Nat) :
    ∀ (g i : Nat) (acc : List BufferSlot),
      (∃ d, d < k ∧ plan (i + d) ≠ InitOutcome.ok) →
      (initSlots plan w h g i k acc).1 = none := by
  induction k with
  | zero =>
    intro g i acc ⟨d, hd, _⟩
    omega
  | succ k ih =>
    intro g i acc ⟨d, hd, hne⟩
    rcases hi : init_slot (plan i) w h g with ⟨o1, g1, evF⟩
    cases o1 with
    | none => simp [initSlots, hi]
    | some s =>
      have hok := init_slot_some_iff hi
      have hd0 : d ≠ 0 := by
        intro h0
        rw [h0] at hne
        simp at hne
        exact hne hok
      obtain ⟨d', rfl⟩ : ∃ d', d = d' + 1 := ⟨d - 1, by omega⟩
      rcases hrec : initSlots plan w h g1 (i + 1) k (acc ++ [s]) with ⟨r, g2, ev2⟩
      have hr : r = none := by
        have := ih g1 (i + 1) (acc ++ [s])
          ⟨d', by omega, by rwa [show i + 1 + d' = i + (d' + 1) by omega]⟩
        rwa [hrec] at this
      simp [initSlots, hi, hrec, hr]

lemma initSlots_all_ok (plan : Nat → InitOutcome) (w h : Int) (k : Nat) :
    ∀ (g i : Nat) (acc : List BufferSlot),
      (∀ d, d < k → plan (i + d) = InitOutcome.ok) →
      ∃ slots g2 ev, initSlots plan w h g i k acc = (some slots, g2, ev) := by
  induction k with
  | zero =>
    intro g i acc _
    exact ⟨acc, g, [], rfl⟩
  | succ k ih =>
    intro g i acc hplan
    have h0 : plan i = InitOutcome.ok := by simpa using hplan 0 (by omega)
    obtain ⟨slots, g2, ev, hrec⟩ := ih (g + 5) (i + 1)
        (acc ++ [(⟨g + 1, g + 2, g + 3, g + 4, g + 5⟩ : BufferSlot)])
        (fun d hd => by
          rw [show i + 1 + d = i + (d + 1) by omega]
          exact hplan (d + 1) (by omega))
    refine ⟨slots, g2,
      [Ev.ahbAlloc (g + 1) w h, Ev.eglCreateImage (g + 2), Ev.genTexture (g + 3),
       Ev.genFbo (g + 4), Ev.genRbo (g + 5)] ++ ev, ?_⟩
    simp [initSlots, h0, init_slot, hrec]

lemma initSlots_none (plan : Nat → InitOutcome) (w h : Int) (k : Nat) :
    ∀ (g i g2 : Nat) (acc : List BufferSlot) (ev : List Ev),
      initSlots plan w h g i k acc = (none, g2, ev) →
      (∀ e ∈ ev, ∀ r, releaseOf e = some r → r ∈ ev) ∧
      (∀ s ∈ acc, ∀ r ∈ slotReleaseEvs s, r ∈ ev) ∧
      (∀ e ∈ ev, ∀ id ww hh, e = Ev.ahbAlloc id ww hh → ww = w ∧ hh = h) := by
  induction k with
  | zero =>
    intro g i g2 acc ev hinit
    simp [initSlots, Prod.mk.injEq] at hinit
  | succ k ih =>
    intro g i g2 acc ev hinit
    rcases hi : init_slot (plan i) w h g with ⟨o1, g1, evF⟩
    cases o1 with
    | none =>
      have hprops := init_slot_none_matched hi
      simp only [initSlots, hi] at hinit
      obtain ⟨_, hev⟩ : g1 = g2 ∧ evF ++ destroyAll acc = ev := by
        simpa [Prod.mk.injEq] using hinit
      subst hev
      refine ⟨?_, ?_, ?_⟩
      · intro e he r hr
        rcases List.mem_append.mp he with h1 | h1
        · exact List.mem_append.mpr (Or.inl (hprops.1 e h1 r hr))
        · rw [destroyAll_releaseOf h1] at hr
          cases hr
      · intro s hs r hr
        exact List.mem_append.mpr (Or.inr (destroyAll_sub hs r hr))
      · intro e he id ww hh heq
        rcases List.mem_append.mp he with h1 | h1
        · exact hprops.2 e h1 id ww hh heq
        · rcases mem_destroyAll h1 with ⟨s, _, hx⟩
          exact absurd heq (destroy_slot_not_alloc hx id ww hh)
    | some s =>
      have hok := init_slot_some_iff hi
      have hi2 : init_slot (plan i) w h g =
          (some (⟨g + 1, g + 2, g + 3, g + 4, g + 5⟩ : BufferSlot), g + 5,
           [Ev.ahbAlloc (g + 1) w h, Ev.eglCreateImage (g + 2), Ev.genTexture (g + 3),
            Ev.genFbo (g + 4), Ev.genRbo (g + 5)]) := by
        rw [hok]
        rfl
      simp only [initSlots, hi2] at hinit
      rcases hrec : initSlots plan w h (g + 5) (i + 1) k
          (acc ++ [(⟨g + 1, g + 2, g + 3, g + 4, g + 5⟩ : BufferSlot)]) with ⟨r, g2', ev2⟩
      rw [hrec] at hinit
      obtain ⟨hr, hg2, hev⟩ : r = none ∧ g2' = g2 ∧
          [Ev.ahbAlloc (g + 1) w h, Ev.eglCreateImage (g + 2), Ev.genTexture (g + 3),
           Ev.genFbo (g + 4), Ev.genRbo (g + 5)] ++ ev2 = ev := by
        simpa [Prod.mk.injEq] using hinit
      subst hr
      subst hev
      obtain ⟨ihm, ihacc, ihdims⟩ := ih (g + 5) (i + 1) g2' _ ev2 hrec
      have hsub : ∀ r ∈ slotReleaseEvs (⟨g + 1, g + 2, g + 3, g + 4, g + 5⟩ : BufferSlot),
          r ∈ ev2 :=
        ihacc (⟨g + 1, g + 2, g + 3, g + 4, g + 5⟩ : BufferSlot) (by simp)
      refine ⟨?_, ?_, ?_⟩
      · intro e he r hr
        rcases List.mem_append.mp he with h1 | h1
        · refine List.mem_append.mpr (Or.inr (hsub r ?_))
          rw [slotReleaseEvs_fresh]
          fin_cases h1 <;>
            simp only [releaseOf, Option.some.injEq] at hr <;>
            simp [← hr]
        · exact List.mem_append.mpr (Or.inr (ihm e h1 r hr))
      · intro s' hs' r hr
        exact List.mem_append.mpr
          (Or.inr (ihacc s' (List.mem_append.mpr (Or.inl hs')) r hr))
      · intro e he id ww hh heq
        rcases List.mem_append.mp he with h1 | h1
        · fin_cases h1
          · injection heq with e1 e2 e3
            exact ⟨e2.symm, e3.symm⟩
          all_goals exact absurd heq (by simp)
        · exact ihdims e h1 id ww hh heq

lemma acquireBuffer_pos {p : BufferPool} (hc : 0 < p.count) :
    acquireBuffer (some p) =
      ((p.current + 1).tmod p.count,
       some { p with current := (p.current + 1).tmod p.count },
       [Ev.bindFbo ((p.slots.getD ((p.current + 1).tmod p.count).toNat emptySlot).fbo),
        Ev.viewport p.width p.height]) := by
  simp [acquireBuffer, show ¬(p.count ≤ 0) by omega]

lemma acquireSeq_results (k : Nat) :
    ∀ (p : BufferPool), 0 < p.count → -1 ≤ p.current →
      (acquireSeq k (some p)).1 =
        (List.range k).map (fun j : Nat => (p.current + 1 + (j : Int)).tmod p.count) := by
  induction k with
  | zero =>
    intro p _ _
    simp [acquireSeq]
  | succ k ih =>
    intro p hc hcur
    have hb := acquireBuffer_pos hc
    have hnn : 0 ≤ (p.current + 1).tmod p.count :=
      Int.tmod_nonneg _ (by omega)
    rcases hrec : acquireSeq k (some { p with current := (p.current + 1).tmod p.count })
      with ⟨rs, evs, p2⟩
    have ihp := ih { p with current := (p.current + 1).tmod p.count } hc
      (by simp only []; omega)
    rw [hrec] at ihp
    simp only at ihp
    simp only [acquireSeq, hb, hrec]
    have key : ∀ j : Nat,
        ((p.current + 1).tmod p.count + 1 + (j : Int)).tmod p.count
          = (p.current + 1 + ((j : Int) + 1)).tmod p.count := by
      intro j
      have ha : (0 : Int) ≤ p.current + 1 := by omega
      have hn : (0 : Int) ≤ p.count := by omega
      have hmodnn : (0 : Int) ≤ (p.current + 1) % p.count :=
        Int.emod_nonneg _ (by omega)
      rw [Int.tmod_eq_emod ha hn, Int.tmod_eq_emod (by omega) hn,
          Int.tmod_eq_emod (by omega) hn]
      have h1 : (p.current + 1) % p.count + 1 + (j : Int)
          = (p.current + 1) % p.count + (1 + j) := by ring
      rw [h1, Int.emod_add_emod]
      congr 1
      ring
    rw [List.range_succ_eq_map, List.map_cons, List.map_map]
    have hhead : (p.current + 1 + ((0 : Nat) : Int)).tmod p.count
        = (p.current + 1).tmod p.count := by norm_num
    rw [hhead]
    congr 1
    rw [ihp]
    refine List.map_congr_left ?_
    intro j _
    simp only [Function.comp_apply]
    rw [key j]
    push_cast
    ring_nf

lemma clampCountI_pos (count : Int) : 0 < clampCountI count := by
  unfold clampCountI MAX_BUFFER_COUNT
  split <;> omega

lemma clampCountI_le (count : Int) : clampCountI count ≤ 4 := by
  unfold clampCountI MAX_BUFFER_COUNT
  split <;> omega

lemma clampCountI_in_range {count : Int} (h1 : 1 ≤ count) (h4 : count ≤ 4) :
    clampCountI count = count := by
  unfold clampCountI MAX_BUFFER_COUNT
  split <;> omega

lemma clampCountI_out_of_range {count : Int} (h : count < 1 ∨ 4 < count) :
    clampCountI count = 3 := by
  unfold clampCountI MAX_BUFFER_COUNT
  split <;> omega

lemma createBufferPool_some {host : Host} {w h count : Int} {p : BufferPool}
    {ev : List Ev} (hcp : createBufferPool host w h count = (some p, ev)) :
    host.extOk = true ∧ host.callocOk = true ∧
    p.current = -1 ∧ p.count = clampCountI count ∧ p.width = w ∧ p.height = h ∧
    p.hasFenceSupport = host.fenceExt ∧
    ∃ g2, initSlots host.plan w h host.g0 0 (clampCountI count).toNat []
            = (some p.slots, g2, ev) := by
  unfold createBufferPool at hcp
  cases hext : host.extOk with
  | false =>
    rw [hext] at hcp
    simp at hcp
  | true =>
    rw [hext] at hcp
    cases hcalloc : host.callocOk with
    | false =>
      rw [hcalloc] at hcp
      simp at hcp
    | true =>
      rw [hcalloc] at hcp
      simp only [Bool.true_eq_false, if_false] at hcp
      rcases hinit : initSlots host.plan w h host.g0 0 (clampCountI count).toNat []
        with ⟨r, g2, ev'⟩
      rw [hinit] at hcp
      cases r with
      | none => simp at hcp
      | some slots =>
        simp only [Prod.mk.injEq, Option.some.injEq] at hcp
        obtain ⟨hp, hev⟩ := hcp
        subst hev
        refine ⟨rfl, rfl, by rw [← hp], by rw [← hp], by rw [← hp], by rw [← hp],
                by rw [← hp], g2, by rw [← hp]; try exact hinit⟩

lemma resizeBufferPool_cases (plan : Nat → InitOutcome) (g : Nat) (p : BufferPool)
    (w h : Int) :
    (p.width = w ∧ p.height = h ∧
      resizeBufferPool plan g (some p) w h = (0, some p, [])) ∨
    (¬(p.width = w ∧ p.height = h) ∧
      ((∃ slots g2 ev,
          initSlots plan w h g 0 p.count.toNat [] = (some slots, g2, ev) ∧
          resizeBufferPool plan g (some p) w h =
            (0, some { p with slots := slots, width := w, height := h,
                              current := -1 },
             Ev.glFinish :: (destroyAll p.slots ++ ev))) ∨
       (∃ g2 ev,
          initSlots plan w h g 0 p.count.toNat [] = (none, g2, ev) ∧
          resizeBufferPool plan g (some p) w h =
            (-1, some { p with slots := [], width := w, height := h,
                               current := -1, count := 0 },
             Ev.glFinish :: (destroyAll p.slots ++ ev))))) := by
  by_cases hdim : p.width = w ∧ p.height = h
  · exact Or.inl ⟨hdim.1, hdim.2, by simp [resizeBufferPool, hdim]⟩
  · refine Or.inr ⟨hdim, ?_⟩
    rcases hinit : initSlots plan w h g 0 p.count.toNat [] with ⟨rr, g2, ev⟩
    cases rr with
    | some slots =>
      refine Or.inl ⟨slots, g2, ev, rfl, ?_⟩
      simp [resizeBufferPool, hdim, hinit]
    | none =>
      refine Or.inr ⟨g2, ev, rfl, ?_⟩
      simp [resizeBufferPool, hdim, hinit]

/-! ### Claim theorems -/

/-- C2: pool creation is all-or-nothing.  If any slot fails to initialize
during `createBufferPool`, every GPU object created in that attempt
(including the slots `[0, i)` initialized before the failure) is destroyed
(every creation event has a matching release event in the trace), the pool
storage is freed (the trace ends with `freePool`), and the call returns the
null pool; a non-null returned pool always has all `count` slots fully
initialized. -/
theorem C2_create_all_or_nothing (host : Host) (w h count : Int)
    (hext : host.extOk = true) (hcalloc : host.callocOk = true) :
    (∀ p ev, createBufferPool host w h count = (some p, ev) →
      p.slots.length = (clampCountI count).toNat ∧
      ∀ s ∈ p.slots, completeSlot s) ∧
    (∀ i : Nat, i < (clampCountI count).toNat → host.plan i ≠ InitOutcome.ok →
      ∃ ev, createBufferPool host w h count = (none, ev) ∧
        Matched ev ∧ ev.getLast? = some Ev.freePool) := by
  constructor
  · intro p ev hcp
    obtain ⟨_, _, _, _, _, _, _, g2, hinit⟩ := createBufferPool_some hcp
    obtain ⟨_, hlen, hmem, _⟩ :=
      initSlots_some host.plan w h (clampCountI count).toNat host.g0 0 [] p.slots g2 ev hinit
    refine ⟨by simpa using hlen, ?_⟩
    intro s hs
    rcases hmem s hs with hfalse | ⟨hc, _⟩
    · simp at hfalse
    · exact hc
  · intro i hi hne
    have hfail := initSlots_fail_none host.plan w h (clampCountI count).toNat host.g0 0 []
      ⟨i, hi, by simpa using hne⟩
    rcases hinit : initSlots host.plan w h host.g0 0 (clampCountI count).toNat []
      with ⟨r, g2, ev⟩
    rw [hinit] at hfail
    simp only at hfail
    subst hfail
    obtain ⟨hm, _, _⟩ :=
      initSlots_none host.plan w h (clampCountI count).toNat host.g0 0 g2 [] ev hinit
    refine ⟨ev ++ [Ev.freePool], ?_, ?_, ?_⟩
    · unfold createBufferPool
      rw [hext, hcalloc]
      simp [hinit]
    · intro e he r hr
      rcases List.mem_append.mp he with h1 | h1
      · exact List.mem_append.mpr (Or.inl (hm e h1 r hr))
      · have : e = Ev.freePool := by simpa using h1
        subst this
        simp [releaseOf] at hr
    · simp

/-- C2 witness: with an environment whose second slot initialization fails,
`createBufferPool` at 100×100 with count 3 returns the null pool, its trace
is release-matched, and the trace ends with `freePool`. -/
theorem C2_create_all_or_nothing_witness :
    hostFail1.extOk = true ∧ hostFail1.callocOk = true ∧
    (1 : Nat) < (clampCountI 3).toNat ∧ hostFail1.plan 1 ≠ InitOutcome.ok ∧
    ∃ ev, createBufferPool hostFail1 100 100 3 = (none, ev) ∧
      Matched ev ∧ ev.getLast? = some Ev.freePool :=
  ⟨by decide, by decide, by decide, by decide,
   (C2_create_all_or_nothing hostFail1 100 100 3 (by decide) (by decide)).2
     1 (by decide) (by decide)⟩

/-- C8: for `count ∈ [1, 4]` a successful `createBufferPool` yields a pool
with exactly `count` slots at the requested width and height (every
allocation in the trace uses those dimensions); for `count` outside
`[1, MAX_BUFFER_COUNT]` the pool is created with the default of 3 slots. -/
theorem C8_create_count (host : Host) (w h count : Int)
    (hext : host.extOk = true) (hcalloc : host.callocOk = true)
    (hplan : ∀ i, host.plan i = InitOutcome.ok) :
    ∃ p ev, createBufferPool host w h count = (some p, ev) ∧
      (1 ≤ count ∧ count ≤ MAX_BUFFER_COUNT → p.count = count) ∧
      ((count < 1 ∨ MAX_BUFFER_COUNT < count) → p.count = 3) ∧
      p.slots.length = p.count.toNat ∧
      p.width = w ∧ p.height = h ∧
      (∀ s ∈ p.slots, completeSlot s) ∧
      (∀ e ∈ ev, ∀ id ww hh, e = Ev.ahbAlloc id ww hh → ww = w ∧ hh = h) := by
  obtain ⟨slots, g2, ev, hinit⟩ :=
    initSlots_all_ok host.plan w h (clampCountI count).toNat host.g0 0 []
      (fun d _ => hplan (0 + d))
  obtain ⟨_, hlen, hmem, hdims⟩ :=
    initSlots_some host.plan w h (clampCountI count).toNat host.g0 0 [] slots g2 ev hinit
  refine ⟨{ slots := slots, count := clampCountI count, width := w, height := h,
            current := -1, hasFenceSupport := host.fenceExt }, ev, ?_, ?_, ?_, ?_,
          rfl, rfl, ?_, ?_⟩
  · unfold createBufferPool
    rw [hext, hcalloc]
    simp [hinit]
  · intro ⟨h1, h4⟩
    simpa using clampCountI_in_range h1 h4
  · intro hout
    simpa using clampCountI_out_of_range
      (by unfold MAX_BUFFER_COUNT at hout; omega)
  · simpa using hlen
  · intro s hs
    rcases hmem s hs with hfalse | ⟨hc, _⟩
    · simp at hfalse
    · exact hc
  · exact hdims

/-- C8 witness: `createBufferPool hostOk 800 600 2` succeeds with a 2-slot
pool, and with the out-of-range count 9 it yields a 3-slot pool. -/
theorem C8_create_count_witness :
    hostOk.extOk = true ∧ hostOk.callocOk = true ∧
    (∀ i, hostOk.plan i = InitOutcome.ok) ∧
    (∃ p ev, createBufferPool hostOk 800 600 2 = (some p, ev) ∧
      (1 ≤ (2 : Int) ∧ (2 : Int) ≤ MAX_BUFFER_COUNT → p.count = 2) ∧
      (((2 : Int) < 1 ∨ MAX_BUFFER_COUNT < (2 : Int)) → p.count = 3) ∧
      p.slots.length = p.count.toNat ∧
      p.width = 800 ∧ p.height = 600 ∧
      (∀ s ∈ p.slots, completeSlot s) ∧
      (∀ e ∈ ev, ∀ id ww hh, e = Ev.ahbAlloc id ww hh → ww = 800 ∧ hh = 600)) :=
  ⟨by decide, by decide, fun _ => rfl,
   C8_create_count hostOk 800 600 2 (by decide) (by decide) (fun _ => rfl)⟩

/-- C3: round-robin acquisition.  A freshly created pool has `current = -1`
and a positive count, the indices returned by `k` consecutive
`acquireBuffer` calls (no intervening resize) are
`[0 mod n, 1 mod n, …, (k-1) mod n]` — i.e. the k-th call returns
`(k-1) mod n` — and `acquireBuffer` is the only operation that advances the
round-robin index: `resizeBufferPool` only ever leaves `current` unchanged
or resets it to `-1`. -/
theorem C3_round_robin (host : Host) (w h count : Int) (p : BufferPool)
    (ev : List Ev) (hcp : createBufferPool host w h count = (some p, ev)) :
    p.current = -1 ∧ 0 < p.count ∧
    (∀ k : Nat, (acquireSeq k (some p)).1 =
      (List.range k).map (fun j : Nat => (j : Int).tmod p.count)) ∧
    (∀ (q : BufferPool) (plan : Nat → InitOutcome) (g : Nat) (w2 h2 r : Int)
        (q2 : Option BufferPool) (ev2 : List Ev),
        resizeBufferPool plan g (some q) w2 h2 = (r, q2, ev2) →
        ∃ q', q2 = some q' ∧ (q'.current = q.current ∨ q'.current = -1)) := by
  obtain ⟨_, _, hcur, hcount, _, _, _, g2, _⟩ := createBufferPool_some hcp
  have hpos : 0 < p.count := hcount ▸ clampCountI_pos count
  refine ⟨hcur, hpos, ?_, ?_⟩
  · intro k
    rw [acquireSeq_results k p hpos (by omega)]
    refine List.map_congr_left ?_
    intro j _
    rw [hcur]
    norm_num
  · intro q plan g w2 h2 r q2 ev2 hres
    rcases resizeBufferPool_cases plan g q w2 h2 with
      ⟨_, _, heq⟩ | ⟨_, ⟨slots, g3, ev3, _, heq⟩ | ⟨g3, ev3, _, heq⟩⟩
    · rw [heq] at hres
      obtain ⟨_, hq2, _⟩ : (0 : Int) = r ∧ some q = q2 ∧ ([] : List Ev) = ev2 := by
        simpa [Prod.mk.injEq] using hres
      exact ⟨q, hq2.symm, Or.inl rfl⟩
    · rw [heq] at hres
      obtain ⟨_, hq2, _⟩ := by simpa [Prod.mk.injEq] using hres
      exact ⟨_, hq2.symm, Or.inr rfl⟩
    · rw [heq] at hres
      obtain ⟨_, hq2, _⟩ := by simpa [Prod.mk.injEq] using hres
      exact ⟨_, hq2.symm, Or.inr rfl⟩

/-- C3 witness: on the concrete 2-slot pool created by `hostOk`, seven
acquires return `[0, 1, 0, 1, 0, 1, 0]`. -/
theorem C3_round_robin_witness :
    (∃ p ev, createBufferPool hostOk 100 100 2 = (some p, ev) ∧
      p.current = -1 ∧ 0 < p.count ∧
      (acquireSeq 7 (some p)).1 =
        (List.range 7).map (fun j : Nat => (j : Int).tmod p.count)) ∧
    (acquireSeq 7 (createBufferPool hostOk 100 100 2).1).1 =
      [0, 1, 0, 1, 0, 1, 0] := by
  have hcp : createBufferPool hostOk 100 100 2 =
      (some ⟨[⟨1, 2, 3, 4, 5⟩, ⟨6, 7, 8, 9, 10⟩], 2, 100, 100, -1, true⟩,
       [Ev.ahbAlloc 1 100 100, Ev.eglCreateImage 2, Ev.genTexture 3, Ev.genFbo 4,
        Ev.genRbo 5, Ev.ahbAlloc 6 100 100, Ev.eglCreateImage 7, Ev.genTexture 8,
        Ev.genFbo 9, Ev.genRbo 10]) := by decide
  have h := C3_round_robin hostOk 100 100 2 _ _ hcp
  exact ⟨⟨_, _, hcp, h.1, h.2.1, h.2.2.1 7⟩, by decide⟩

/-- C4: resize never leaves a mixed pool.  For new dimensions different from
the current ones: if recreating any slot fails, every slot created so far in
the resize is destroyed (every creation event in the trace has a matching
release event), the pool's count is set to zero with no remaining slots, and
the call returns `-1`; on success every slot is replaced at the new
dimensions (the old slots' release events are all in the trace, the new
slots are complete, fresh, and every allocation in the trace uses the new
dimensions). -/
theorem C4_resize_atomic (p : BufferPool) (plan : Nat → InitOutcome) (g : Nat)
    (w h : Int) (hdim : ¬(p.width = w ∧ p.height = h)) :
    ((∃ i : Nat, i < p.count.toNat ∧ plan i ≠ InitOutcome.ok) →
      ∃ p2 ev, resizeBufferPool plan g (some p) w h = (-1, some p2, ev) ∧
        p2.count = 0 ∧ p2.slots = [] ∧ Matched ev ∧
        (∀ s ∈ p.slots, ∀ r ∈ slotReleaseEvs s, r ∈ ev)) ∧
    ((∀ i : Nat, i < p.count.toNat → plan i = InitOutcome.ok) →
      ∃ p2 ev, resizeBufferPool plan g (some p) w h = (0, some p2, ev) ∧
        p2.count = p.count ∧ p2.width = w ∧ p2.height = h ∧
        p2.slots.length = p.count.toNat ∧
        (∀ s ∈ p2.slots, completeSlot s ∧ slotFresh g s) ∧
        (∀ e ∈ ev, ∀ id ww hh, e = Ev.ahbAlloc id ww hh → ww = w ∧ hh = h) ∧
        (∀ s ∈ p.slots, ∀ r ∈ slotReleaseEvs s, r ∈ ev)) := by
  rcases resizeBufferPool_cases plan g p w h with
    ⟨hw, hh, _⟩ | ⟨_, ⟨slots, g3, ev3, hinit, heq⟩ | ⟨g3, ev3, hinit, heq⟩⟩
  · exact absurd ⟨hw, hh⟩ hdim
  · -- initSlots succeeded: the failure hypothesis is contradictory
    constructor
    · intro ⟨i, hi, hne⟩
      have hfail := initSlots_fail_none plan w h p.count.toNat g 0 []
        ⟨i, hi, by simpa using hne⟩
      rw [hinit] at hfail
      simp at hfail
    · intro _
      obtain ⟨_, hlen, hmem, hdims⟩ :=
        initSlots_some plan w h p.count.toNat g 0 [] slots g3 ev3 hinit
      refine ⟨_, _, heq, rfl, rfl, rfl, by simpa using hlen, ?_, ?_, ?_⟩
      · intro s hs
        simp only at hs
        rcases hmem s hs with hfalse | hgood
        · simp at hfalse
        · exact hgood
      · intro e he id ww hh heq2
        rcases List.mem_cons.mp he with h1 | h1
        · subst heq2
          cases h1
        · rcases List.mem_append.mp h1 with h2 | h2
          · rcases mem_destroyAll h2 with ⟨s, _, hx⟩
            exact absurd heq2 (destroy_slot_not_alloc hx id ww hh)
          · exact hdims e h2 id ww hh heq2
      · intro s hs r hr
        exact List.mem_cons.mpr (Or.inr (List.mem_append.mpr
          (Or.inl (destroyAll_sub hs r hr))))
  · -- initSlots failed
    constructor
    · intro _
      obtain ⟨hm, _, _⟩ := initSlots_none plan w h p.count.toNat g 0 g3 [] ev3 hinit
      refine ⟨_, _, heq, rfl, rfl, ?_, ?_⟩
      · intro e he r hr
        rcases List.mem_cons.mp he with h1 | h1
        · subst h1
          simp [releaseOf] at hr
        · rcases List.mem_append.mp h1 with h2 | h2
          · rw [destroyAll_releaseOf h2] at hr
            cases hr
          · exact List.mem_cons.mpr (Or.inr (List.mem_append.mpr
              (Or.inr (hm e h2 r hr))))
      · intro s hs r hr
        exact List.mem_cons.mpr (Or.inr (List.mem_append.mpr
          (Or.inl (destroyAll_sub hs r hr))))
    · intro hall
      obtain ⟨slots', g4, ev4, hok⟩ :=
        initSlots_all_ok plan w h p.count.toNat g 0 []
          (fun d hd => by simpa using hall d hd)
      rw [hinit] at hok
      simp at hok

/-- C4 witness: failure case at a concrete pool — resizing the 2-slot
100×100 pool to 50×60 with the first recreation failing zeroes the count
and leaves a release-matched trace; success case — the all-ok plan replaces
both slots at 50×60. -/
theorem C4_resize_atomic_witness :
    ¬((100 : Int) = 50 ∧ (100 : Int) = 60) ∧
    (∃ p2 ev, resizeBufferPool (fun _ => InitOutcome.allocFail) 20
        (some ⟨[⟨1, 2, 3, 4, 5⟩, ⟨6, 7, 8, 9, 10⟩], 2, 100, 100, 1, true⟩) 50 60 =
        (-1, some p2, ev) ∧
      p2.count = 0 ∧ p2.slots = [] ∧ Matched ev ∧
      (∀ s ∈ [(⟨1, 2, 3, 4, 5⟩ : BufferSlot), ⟨6, 7, 8, 9, 10⟩],
        ∀ r ∈ slotReleaseEvs s, r ∈ ev)) := by
  have h := C4_resize_atomic ⟨[⟨1, 2, 3, 4, 5⟩, ⟨6, 7, 8, 9, 10⟩], 2, 100, 100, 1, true⟩
    (fun _ => InitOutcome.allocFail) 20 50 60 (by decide)
  exact ⟨by decide, h.1 ⟨0, by decide, by decide⟩⟩

/-- C5: `presentBuffer` with invalid inputs (null pool, null compositor
surface, or slot index out of range such as `index = count`) performs no
compositor transaction and closes the supplied fence fd exactly once when
it is non-negative; a negative fd (the `-1` sentinel) is never closed. -/
theorem C5_present_invalid (pool : Option BufferPool)
    (surfaceOk txnResolvedOk txnCreateOk : Bool) (idx fd : Int)
    (hinv : pool = none ∨ surfaceOk = false ∨ idx < 0 ∨
            (∃ p, pool = some p ∧ p.count ≤ idx)) :
    presentBuffer surfaceOk txnResolvedOk txnCreateOk pool idx fd =
      (if 0 ≤ fd then [Ev.closeFd fd] else []) ∧
    Ev.txnApply ∉ presentBuffer surfaceOk txnResolvedOk txnCreateOk pool idx fd ∧
    (presentBuffer surfaceOk txnResolvedOk txnCreateOk pool idx fd).count
        (Ev.closeFd fd) = (if 0 ≤ fd then 1 else 0) := by
  have hres : presentBuffer surfaceOk txnResolvedOk txnCreateOk pool idx fd =
      (if 0 ≤ fd then [Ev.closeFd fd] else []) := by
    cases pool with
    | none => rfl
    | some p =>
      have hguard : surfaceOk = false ∨ txnResolvedOk = false ∨
          idx < 0 ∨ p.count ≤ idx := by
        rcases hinv with hn | hs | hlt | ⟨q, hq, hcnt⟩
        · cases hn
        · exact Or.inl hs
        · exact Or.inr (Or.inr (Or.inl hlt))
        · refine Or.inr (Or.inr (Or.inr ?_))
          obtain rfl : q = p := by simpa using hq.symm
          exact hcnt
      simp [presentBuffer, hguard]
  refine ⟨hres, ?_, ?_⟩
  · rw [hres]
    split <;> simp
  · rw [hres]
    split <;> simp

/-- C5 witness: presenting slot index 2 on the concrete 2-slot pool
(one past the valid range) with fence fd 7 closes the fd exactly once and
applies no transaction; with the -1 sentinel nothing is closed. -/
theorem C5_present_invalid_witness :
    ((some (⟨[⟨1, 2, 3, 4, 5⟩, ⟨6, 7, 8, 9, 10⟩], 2, 100, 100, 0, true⟩ : BufferPool)
        : Option BufferPool) = none ∨ true = false ∨ (2 : Int) < 0 ∨
      (∃ p, (some (⟨[⟨1, 2, 3, 4, 5⟩, ⟨6, 7, 8, 9, 10⟩], 2, 100, 100, 0, true⟩
          : BufferPool) : Option BufferPool) = some p ∧ p.count ≤ 2)) ∧
    (presentBuffer true true true
        (some ⟨[⟨1, 2, 3, 4, 5⟩, ⟨6, 7, 8, 9, 10⟩], 2, 100, 100, 0, true⟩) 2 7 =
      (if (0 : Int) ≤ 7 then [Ev.closeFd 7] else []) ∧
     Ev.txnApply ∉ presentBuffer true true true
        (some ⟨[⟨1, 2, 3, 4, 5⟩, ⟨6, 7, 8, 9, 10⟩], 2, 100, 100, 0, true⟩) 2 7 ∧
     (presentBuffer true true true
        (some ⟨[⟨1, 2, 3, 4, 5⟩, ⟨6, 7, 8, 9, 10⟩], 2, 100, 100, 0, true⟩) 2 7).count
        (Ev.closeFd 7) = (if (0 : Int) ≤ 7 then 1 else 0)) ∧
    presentBuffer true true true
        (some ⟨[⟨1, 2, 3, 4, 5⟩, ⟨6, 7, 8, 9, 10⟩], 2, 100, 100, 0, true⟩) 2 (-1)
      = [] :=
  ⟨Or.inr (Or.inr (Or.inr ⟨_, rfl, by decide⟩)),
   C5_present_invalid _ true true true 2 7
     (Or.inr (Or.inr (Or.inr ⟨_, rfl, by decide⟩))),
   by decide⟩

/-- C9: `createFence` on a null pool handle or a fence-incapable pool
performs a full synchronous GPU finish (`glFinish`) and returns the `-1`
sentinel; it never returns a fence handle in that case. -/
theorem C9_fence_incapable (fh : FenceHost) (pool : Option BufferPool)
    (h : pool = none ∨ ∃ p, pool = some p ∧ p.hasFenceSupport = false) :
    createFence fh pool = (-1, [Ev.glFinish]) := by
  rcases h with rfl | ⟨p, rfl, hp⟩
  · rfl
  · simp [createFence, hp]

/-- C9 witness: on a concrete fence-incapable pool (and on the null pool)
`createFence` with a working sync environment still returns `-1` after a
`glFinish`. -/
theorem C9_fence_incapable_witness :
    ((some (⟨[⟨1, 2, 3, 4, 5⟩], 1, 100, 100, -1, false⟩ : BufferPool)
        : Option BufferPool) = none ∨
      ∃ p, (some (⟨[⟨1, 2, 3, 4, 5⟩], 1, 100, 100, -1, false⟩ : BufferPool)
          : Option BufferPool) = some p ∧ p.hasFenceSupport = false) ∧
    createFence ⟨true, 11⟩
      (some ⟨[⟨1, 2, 3, 4, 5⟩], 1, 100, 100, -1, false⟩) = (-1, [Ev.glFinish]) ∧
    createFence ⟨true, 11⟩ none = (-1, [Ev.glFinish]) :=
  ⟨Or.inr ⟨_, rfl, by decide⟩,
   C9_fence_incapable ⟨true, 11⟩ _ (Or.inr ⟨_, rfl, by decide⟩),
   C9_fence_incapable ⟨true, 11⟩ none (Or.inl rfl)⟩

/-- C1 counterexample: on the concrete 2-slot pool, three consecutive
`acquireBuffer` calls bind slot 0's FBO (handle 4) twice with no wait event
of any kind in between — the trace of the three acquisitions contains no
`glFinish` (and the code performs no fence wait at all), refuting the claim
that a fence wait always executes before a previously-used slot is
rebound. -/
theorem C1_counterexample :
    (acquireSeq 3 (createBufferPool hostOk 100 100 2).1).2.1 =
      [Ev.bindFbo 4, Ev.viewport 100 100, Ev.bindFbo 9, Ev.viewport 100 100,
       Ev.bindFbo 4, Ev.viewport 100 100] ∧
    (acquireSeq 3 (createBufferPool hostOk 100 100 2).1).2.1.count (Ev.bindFbo 4) = 2 ∧
    Ev.glFinish ∉ (acquireSeq 3 (createBufferPool hostOk 100 100 2).1).2.1 := by
  decide

/-- C1 amended: `acquireBuffer` performs no fence wait before rebinding a
slot.  On any pool with a positive count it unconditionally advances the
round-robin index, binds the next slot's FBO and sets the viewport; its
event trace never contains a wait (`glFinish`), so a previously-used slot
can be rebound with no intervening wait-and-reset — synchronization with
the compositor is carried only by the fence fd attached at present time. -/
theorem C1_acquire_no_wait (p : BufferPool) (hc : 0 < p.count) :
    acquireBuffer (some p) =
      ((p.current + 1).tmod p.count,
       some { p with current := (p.current + 1).tmod p.count },
       [Ev.bindFbo ((p.slots.getD ((p.current + 1).tmod p.count).toNat emptySlot).fbo),
        Ev.viewport p.width p.height]) ∧
    Ev.glFinish ∉ (acquireBuffer (some p)).2.2 := by
  refine ⟨acquireBuffer_pos hc, ?_⟩
  rw [acquireBuffer_pos hc]
  simp

/-- C1 amended witness: the concrete 1-slot pool at `current = 0` is
immediately rebound (FBO 4 again) with no wait event. -/
theorem C1_acquire_no_wait_witness :
    (0 : Int) < (1 : Int) ∧
    acquireBuffer (some ⟨[⟨1, 2, 3, 4, 5⟩], 1, 100, 100, 0, true⟩) =
      (0, some ⟨[⟨1, 2, 3, 4, 5⟩], 1, 100, 100, 0, true⟩,
       [Ev.bindFbo 4, Ev.viewport 100 100]) ∧
    Ev.glFinish ∉
      (acquireBuffer (some ⟨[⟨1, 2, 3, 4, 5⟩], 1, 100, 100, 0, true⟩)).2.2 := by
  have h := C1_acquire_no_wait ⟨[⟨1, 2, 3, 4, 5⟩], 1, 100, 100, 0, true⟩ (by decide)
  refine ⟨by decide, ?_, h.2⟩
  rw [h.1]
  decide

/-- C6 counterexample: destroying the concrete 2-slot pool emits only the
per-slot release events followed by `freePool` — there is no `glFinish`
(no GPU drain) anywhere in the trace, refuting the claim that
`destroyBufferPool` first waits for the GPU to go idle. -/
theorem C6_counterexample :
    destroyBufferPool (createBufferPool hostOk 100 100 2).1 =
      [Ev.deleteFbo 4, Ev.deleteRbo 5, Ev.deleteTexture 3, Ev.eglDestroyImage 2,
       Ev.ahbRelease 1, Ev.deleteFbo 9, Ev.deleteRbo 10, Ev.deleteTexture 8,
       Ev.eglDestroyImage 7, Ev.ahbRelease 6, Ev.freePool] ∧
    Ev.glFinish ∉ destroyBufferPool (createBufferPool hostOk 100 100 2).1 := by
  decide

/-- C6 amended: `destroyBufferPool` destroys every slot and frees the pool
without any prior GPU drain: its trace is exactly the slots' destroy events
followed by `freePool`, and contains no `glFinish` (only `resizeBufferPool`
performs a drain before destroying slots). -/
theorem C6_destroy_no_drain (p : BufferPool) :
    destroyBufferPool (some p) = destroyAll p.slots ++ [Ev.freePool] ∧
    Ev.glFinish ∉ destroyBufferPool (some p) := by
  refine ⟨rfl, ?_⟩
  intro hmem
  rcases List.mem_append.mp hmem with h1 | h1
  · exact destroyAll_no_glFinish h1
  · simp at h1

/-- C7 counterexample: presenting slot 0 of the concrete pool with fence
fd 7 produces exactly create / setBuffer / apply / delete — the transaction
never sets visibility, refuting the claim that `presentBuffer` sets
visibility. -/
theorem C7_counterexample :
    presentBuffer true true true (createBufferPool hostOk 100 100 2).1 0 7 =
      [Ev.txnCreate, Ev.txnSetBuffer 1 7, Ev.txnApply, Ev.txnDelete] ∧
    Ev.txnSetVisibility ∉
      presentBuffer true true true (createBufferPool hostOk 100 100 2).1 0 7 := by
  decide

/-- C7 amended: for every valid pool, surface, slot index and fence handle,
`presentBuffer` builds a single compositor transaction that sets the
surface's buffer to the slot's platform buffer with the fence handle
attached (consumed by the transaction) and applies it in one call; it does
not set visibility (visibility is set once when the surface control is
created). -/
theorem C7_present_valid (p : BufferPool) (idx fd : Int)
    (h0 : 0 ≤ idx) (h1 : idx < p.count) :
    presentBuffer true true true (some p) idx fd =
      [Ev.txnCreate,
       Ev.txnSetBuffer ((p.slots.getD idx.toNat emptySlot).buffer) fd,
       Ev.txnApply, Ev.txnDelete] ∧
    Ev.txnSetVisibility ∉ presentBuffer true true true (some p) idx fd ∧
    Ev.closeFd fd ∉ presentBuffer true true true (some p) idx fd := by
  have hres : presentBuffer true true true (some p) idx fd =
      [Ev.txnCreate,
       Ev.txnSetBuffer ((p.slots.getD idx.toNat emptySlot).buffer) fd,
       Ev.txnApply, Ev.txnDelete] := by
    simp [presentBuffer, show ¬(idx < 0) by omega, show ¬(p.count ≤ idx) by omega]
  rw [hres]
  exact ⟨rfl, by simp, by simp⟩

/-- C7 amended witness: slot 1 of the concrete 2-slot pool is presented
with fence fd 7: one transaction sets buffer 6 with fd 7 and applies; no
visibility call and no fd close. -/
theorem C7_present_valid_witness :
    (0 : Int) ≤ 1 ∧ (1 : Int) < 2 ∧
    (presentBuffer true true true
        (some ⟨[⟨1, 2, 3, 4, 5⟩, ⟨6, 7, 8, 9, 10⟩], 2, 100, 100, 0, true⟩) 1 7 =
      [Ev.txnCreate, Ev.txnSetBuffer 6 7, Ev.txnApply, Ev.txnDelete] ∧
     Ev.txnSetVisibility ∉ presentBuffer true true true
        (some ⟨[⟨1, 2, 3, 4, 5⟩, ⟨6, 7, 8, 9, 10⟩], 2, 100, 100, 0, true⟩) 1 7 ∧
     Ev.closeFd 7 ∉ presentBuffer true true true
        (some ⟨[⟨1, 2, 3, 4, 5⟩, ⟨6, 7, 8, 9, 10⟩], 2, 100, 100, 0, true⟩) 1 7) :=
  ⟨by decide, by decide,
   C7_present_valid ⟨[⟨1, 2, 3, 4, 5⟩, ⟨6, 7, 8, 9, 10⟩], 2, 100, 100, 0, true⟩
     1 7 (by decide) (by decide)⟩

/-- C10 counterexample: on the concrete 2-slot 100×100 pool, after one
acquire (cursor at 0) a resize to the same dimensions 100×100 returns 0
(success) but is a no-op that keeps the cursor, so the next `acquireBuffer`
returns 1, not 0 — refuting the claim that the first acquire after any
successful resize returns index 0. -/
theorem C10_counterexample :
    (resizeBufferPool (fun _ => InitOutcome.ok) 20
        ((acquireBuffer (createBufferPool hostOk 100 100 2).1).2.1) 100 100).1 = 0 ∧
    (acquireBuffer (resizeBufferPool (fun _ => InitOutcome.ok) 20
        ((acquireBuffer (createBufferPool hostOk 100 100 2).1).2.1) 100 100).2.1).1
      = 1 := by
  decide

/-- C10 amended: a successful `resizeBufferPool` to dimensions different
from the current ones resets the round-robin cursor to `-1`, so the first
`acquireBuffer` after such a resize returns index 0; a same-dimension
resize is a successful no-op that leaves the cursor unchanged. -/
theorem C10_resize_resets_cursor (p : BufferPool) (plan : Nat → InitOutcome)
    (g : Nat) (w h r : Int) (p2 : Option BufferPool) (ev : List Ev)
    (hdim : ¬(p.width = w ∧ p.height = h))
    (hres : resizeBufferPool plan g (some p) w h = (r, p2, ev)) (hr : r = 0) :
    ∃ q, p2 = some q ∧ q.current = -1 ∧
      (0 < q.count → (acquireBuffer (some q)).1 = 0) := by
  subst hr
  rcases resizeBufferPool_cases plan g p w h with
    ⟨hw, hh, _⟩ | ⟨_, ⟨slots, g3, ev3, _, heq⟩ | ⟨g3, ev3, _, heq⟩⟩
  · exact absurd ⟨hw, hh⟩ hdim
  · rw [heq] at hres
    simp only [Prod.mk.injEq, eq_self_iff_true, true_and] at hres
    obtain ⟨hq2, -⟩ := hres
    refine ⟨_, hq2.symm, rfl, ?_⟩
    intro hc
    rw [acquireBuffer_pos hc]
    simp [Int.zero_tmod]
  · rw [heq] at hres
    simp [Prod.mk.injEq] at hres

/-- C10 amended witness: resizing the concrete 2-slot pool (cursor at 1)
from 100×100 to 200×150 succeeds, resets the cursor to `-1`, and the next
acquire returns 0. -/
theorem C10_resize_resets_cursor_witness :
    ¬((100 : Int) = 200 ∧ (100 : Int) = 150) ∧
    ∃ q, (resizeBufferPool (fun _ => InitOutcome.ok) 20
        (some ⟨[⟨1, 2, 3, 4, 5⟩, ⟨6, 7, 8, 9, 10⟩], 2, 100, 100, 1, true⟩)
        200 150).2.1 = some q ∧ q.current = -1 ∧
      (0 < q.count → (acquireBuffer (some q)).1 = 0) := by
  have hres : resizeBufferPool (fun _ => InitOutcome.ok) 20
      (some ⟨[⟨1, 2, 3, 4, 5⟩, ⟨6, 7, 8, 9, 10⟩], 2, 100, 100, 1, true⟩) 200 150 =
      ((resizeBufferPool (fun _ => InitOutcome.ok) 20
          (some ⟨[⟨1, 2, 3, 4, 5⟩, ⟨6, 7, 8, 9, 10⟩], 2, 100, 100, 1, true⟩)
          200 150).1,
       (resizeBufferPool (fun _ => InitOutcome.ok) 20
          (some ⟨[⟨1, 2, 3, 4, 5⟩, ⟨6, 7, 8, 9, 10⟩], 2, 100, 100, 1, true⟩)
          200 150).2.1,
       (resizeBufferPool (fun _ => InitOutcome.ok) 20
          (some ⟨[⟨1, 2, 3, 4, 5⟩, ⟨6, 7, 8, 9, 10⟩], 2, 100, 100, 1, true⟩)
          200 150).2.2) := rfl
  refine ⟨by decide, ?_⟩
  exact C10_resize_resets_cursor
    ⟨[⟨1, 2, 3, 4, 5⟩, ⟨6, 7, 8, 9, 10⟩], 2, 100, 100, 1, true⟩
    (fun _ => InitOutcome.ok) 20 200 150 _ _ _ (by decide) hres (by decide)
